import Mathlib

/-!
# Verification of the webhook signature verifier and platform client

Shallow embedding of `src/client/validateSignature.js` and the platform
client (`Client`) of the fb-messenger-es6 repository. Byte strings (Node
`Buffer`s and the bytes of JS strings) are modelled as `List Nat` with
entries below 256; JS strings that are compared as strings stay `String`.
`crypto.createHmac('sha1', key).update(buf).digest('hex')` is embedded as a
full HMAC-SHA-1 over the byte lists, per RFC 3174 and RFC 2104, matching
what Node's `crypto` computes.
-/

set_option maxRecDepth 65536

namespace FbMessenger

/-- Truncate to a 32-bit word. -/
def u32 (n : Nat) : Nat := n &&& 0xFFFFFFFF

/-- 32-bit left rotation by `s`. -/
def rotl (s n : Nat) : Nat := u32 ((n <<< s) ||| (n >>> (32 - s)))

/-- Split a byte list into big-endian 32-bit words (4 bytes each). -/
def bytesToWords : List Nat → List Nat
  | b0 :: b1 :: b2 :: b3 :: rest =>
      ((b0 <<< 24) ||| (b1 <<< 16) ||| (b2 <<< 8) ||| b3) :: bytesToWords rest
  | _ => []

/-- Big-endian 8-byte encoding of a (64-bit) number. -/
def be64 (n : Nat) : List Nat :=
  [u32 (n >>> 56) &&& 255, (n >>> 48) &&& 255, (n >>> 40) &&& 255,
   (n >>> 32) &&& 255, (n >>> 24) &&& 255, (n >>> 16) &&& 255,
   (n >>> 8) &&& 255, n &&& 255]

/-- Big-endian 4-byte encoding of a 32-bit word. -/
def be32 (n : Nat) : List Nat :=
  [(n >>> 24) &&& 255, (n >>> 16) &&& 255, (n >>> 8) &&& 255, n &&& 255]

/-- SHA-1 message schedule: starting from the 16 block words (most recent
first), push `k` more words, each the 1-rotation of the xor of the words 3,
8, 14 and 16 positions back. Returns the full reversed schedule. -/
def sha1Extend (ws : List Nat) : Nat → List Nat
  | 0 => ws
  | k + 1 =>
      sha1Extend
        (rotl 1 (ws.getD 2 0 ^^^ ws.getD 7 0 ^^^ ws.getD 13 0 ^^^ ws.getD 15 0) :: ws) k

/-- SHA-1 working state: the five 32-bit registers a, b, c, d, e. -/
structure Sha1State where
  a : Nat
  b : Nat
  c : Nat
  d : Nat
  e : Nat

/-- One SHA-1 round: `i` is the round index (selects f and K), `w` the
schedule word. -/
def sha1Round (i w : Nat) (st : Sha1State) : Sha1State :=
  let f :=
    if i < 20 then (st.b &&& st.c) ||| ((st.b ^^^ 0xFFFFFFFF) &&& st.d)
    else if i < 40 then st.b ^^^ st.c ^^^ st.d
    else if i < 60 then (st.b &&& st.c) ||| (st.b &&& st.d) ||| (st.c &&& st.d)
    else st.b ^^^ st.c ^^^ st.d
  let k :=
    if i < 20 then 0x5A827999
    else if i < 40 then 0x6ED9EBA1
    else if i < 60 then 0x8F1BBCDC
    else 0xCA62C1D6
  ⟨u32 (rotl 5 st.a + f + st.e + k + w), st.a, rotl 30 st.b, st.c, st.d⟩

/-- Run the 80 SHA-1 rounds over the schedule words, starting at round `i`. -/
def sha1Rounds (i : Nat) (ws : List Nat) (st : Sha1State) : Sha1State :=
  match ws with
  | [] => st
  | w :: rest => sha1Rounds (i + 1) rest (sha1Round i w st)

/-- Compress one 64-byte block into the chaining state. -/
def sha1Block (h : Sha1State) (block : List Nat) : Sha1State :=
  let ws := (sha1Extend (bytesToWords block).reverse 64).reverse
  let st := sha1Rounds 0 ws h
  ⟨u32 (h.a + st.a), u32 (h.b + st.b), u32 (h.c + st.c),
   u32 (h.d + st.d), u32 (h.e + st.e)⟩

/-- Fold the compression function over consecutive 64-byte chunks. The first
argument is recursion fuel; any fuel at least the number of blocks gives the
full fold (`sha1` passes the byte count, which always suffices). -/
def sha1Chunks (fuel : Nat) (h : Sha1State) (bytes : List Nat) : Sha1State :=
  match fuel, bytes with
  | 0, _ => h
  | _, [] => h
  | fuel + 1, b :: rest =>
      sha1Chunks fuel (sha1Block h ((b :: rest).take 64)) (rest.drop 63)

/-- SHA-1 padding: append 0x80, zeros to 56 mod 64, then the bit length as
an 8-byte big-endian number. -/
def sha1Pad (msg : List Nat) : List Nat :=
  msg ++ 0x80 :: List.replicate ((64 - ((msg.length + 9) % 64)) % 64) 0
      ++ be64 (msg.length * 8)

/-- SHA-1 of a byte list, as the 20-byte digest. -/
def sha1 (msg : List Nat) : List Nat :=
  let padded := sha1Pad msg
  let st := sha1Chunks padded.length
      ⟨0x67452301, 0xEFCDAB89, 0x98BADCFE, 0x10325476, 0xC3D2E1F0⟩ padded
  be32 st.a ++ be32 st.b ++ be32 st.c ++ be32 st.d ++ be32 st.e

/-- HMAC-SHA-1 (RFC 2104) of a message under a key, as the 20-byte digest. -/
def hmacSha1 (key msg : List Nat) : List Nat :=
  let k0 := if 64 < key.length then sha1 key else key
  let k := k0 ++ List.replicate (64 - k0.length) 0
  sha1 ((k.map (· ^^^ 0x5C)) ++ sha1 ((k.map (· ^^^ 0x36)) ++ msg))

/-- One lowercase hexadecimal digit. -/
def hexDigit (n : Nat) : Char :=
  if n < 10 then Char.ofNat (48 + n) else Char.ofNat (87 + n)

/-- Lowercase hexadecimal encoding of a byte list (Node's
`digest('hex')`). -/
def hexOfBytes (l : List Nat) : String :=
  String.mk (l.foldr (fun b acc => hexDigit ((b >>> 4) &&& 15) :: hexDigit (b &&& 15) :: acc) [])

/-! ## A model of the JS values the client handles -/

/-- Parsed JSON values (the result of `resp.json()` and the objects the
client builds). Numbers are modelled as integers, which covers every
numeric value the claims touch. -/
inductive Json where
  | null : Json
  | bool (b : Bool) : Json
  | num (n : Int) : Json
  | str (s : String) : Json
  | arr (elems : List Json) : Json
  | obj (fields : List (String × Json)) : Json

/-- JS property access `j[k]`: `some` the value for an own property of an
object, `none` (JS `undefined`) otherwise. -/
def Json.get (j : Json) (k : String) : Option Json :=
  match j with
  | .obj fs => fs.lookup k
  | _ => none

/-- `Object.prototype.hasOwnProperty.call(j, k)`. -/
def Json.hasOwnProperty (j : Json) (k : String) : Bool :=
  (j.get k).isSome

/-- JS `String(v)` conversion of a parsed-JSON value: `null`/booleans and
numbers print themselves, arrays join their converted elements with commas,
plain objects print `[object Object]`. -/
def jsStringOf : Json → String
  | .null => "null"
  | .bool b => cond b "true" "false"
  | .num n => toString n
  | .str s => s
  | .arr l => String.intercalate "," (l.attach.map fun x => jsStringOf x.1)
  | .obj _ => "[object Object]"
decreasing_by
  have h := List.sizeOf_lt_of_mem x.2
  simp only [Json.arr.sizeOf_spec]
  omega

/-- JSON string escaping as `JSON.stringify` performs it on string data. -/
def jsonEscapeChar (c : Char) : List Char :=
  if c = '"' then ['\\', '"']
  else if c = '\\' then ['\\', '\\']
  else if c = '\n' then ['\\', 'n']
  else if c = '\r' then ['\\', 'r']
  else if c = '\t' then ['\\', 't']
  else if c.toNat < 32 then
    ['\\', 'u', '0', '0', hexDigit ((c.toNat >>> 4) &&& 15), hexDigit (c.toNat &&& 15)]
  else [c]

/-- `JSON.stringify` on string data. -/
def jsonEscape (s : String) : String :=
  String.mk (s.data.foldr (fun c acc => jsonEscapeChar c ++ acc) [])

/-- `JSON.stringify` of a parsed-JSON value. -/
def Json.stringify : Json → String
  | .null => "null"
  | .bool b => cond b "true" "false"
  | .num n => toString n
  | .str s => "\"" ++ jsonEscape s ++ "\""
  | .arr l => "[" ++ String.intercalate "," (l.attach.map fun x => Json.stringify x.1) ++ "]"
  | .obj fs => "\x7b" ++
      String.intercalate ","
        (fs.attach.map fun x => "\"" ++ jsonEscape x.1.1 ++ "\":" ++ Json.stringify x.1.2) ++
      "\x7d"
decreasing_by
  · have h := List.sizeOf_lt_of_mem x.2
    simp only [Json.arr.sizeOf_spec]
    omega
  · obtain ⟨⟨k, v⟩, hm⟩ := x
    have h := List.sizeOf_lt_of_mem hm
    simp only [Prod.mk.sizeOf_spec] at h
    simp only [Json.obj.sizeOf_spec]
    omega

/-- The values a JS computation in this codebase can throw or a promise can
reject with: a constructed `Error` carrying a message, a plain rejected
value, a `ReferenceError` for an unbound name, a `TypeError` (property
access on `null`), the spec's `ConfigurationError`, and the parameter
errors of the argument checks. -/
inductive JsErr where
  | jsError (message : String) : JsErr
  | jsValue (v : Json) : JsErr
  | referenceError (name : String) : JsErr
  | typeError (message : String) : JsErr
  | configurationError (what : String) : JsErr
  | parameterError (what : String) : JsErr

/-! ## Argument validation helpers (`src/util/validate.js`) -/

/-- Modelled from the spec: `src/util/validate.js` is not among the given
sources (only its call sites are). The spec's construction contract says the
verifier "accepts a non-empty shared secret. Fails with a
`ConfigurationError` if the secret is absent or empty", so `notNull` rejects
an absent (`none`, i.e. JS `null`/`undefined`) or empty value. -/
def validateNotNull (v : Option (List Nat)) (what : String) : Except JsErr Unit :=
  match v with
  | none => .error (.configurationError what)
  | some s => if s.isEmpty then .error (.configurationError what) else .ok ()

/-- Modelled from the spec: `src/util/validate.js` is not among the given
sources. At its call sites `validate.oneOf(value, allowed, what, caller)`
admits `value` exactly when it is one of `allowed` and otherwise throws a
parameter error. -/
def validateOneOf (v : String) (allowed : List String) (what : String) : Except JsErr Unit :=
  if v ∈ allowed then .ok () else .error (.parameterError what)

/-! ## The signature verifier (`src/client/validateSignature.js`) -/

/-- The `ValidateSignature` instance: its only field is the app secret set
by the constructor (modelled as the secret's bytes). -/
structure ValidateSignature where
  appSecret : List Nat

/-- The `ValidateSignature` constructor: `validate.notNull(appSecret, …)`,
then `this.appSecret = appSecret`. -/
def ValidateSignature.construct (appSecret : Option (List Nat)) :
    Except JsErr ValidateSignature :=
  match validateNotNull appSecret "app secret" with
  | .error e => .error e
  | .ok _ => .ok ⟨appSecret.getD []⟩

/-- The computed signature string of `validate`:
`` `sha1=${hmac.digest('hex')}` `` for the HMAC-SHA-1 of the raw body keyed
by the app secret. -/
def computedSignature (secret buffer : List Nat) : String :=
  "sha1=" ++ hexOfBytes (hmacSha1 secret buffer)

/-- `ValidateSignature.validate(request, response, buffer)` with explicit
state passing: `expected` is `request.get('X-Hub-Signature')` (`none` when
the header is missing), `buffer` the raw body bytes. The source throws
`Error('Invalid signature')` when the header is falsy (missing or the empty
string) or differs from the computed signature; on a match it evaluates
`log.debug('Valid signature!')`, but `log` is not imported and not in scope
in that module, so the match branch throws a `ReferenceError` for `log`.
The instance is returned unchanged: the method never assigns to `this`. -/
def ValidateSignature.validateRun (self : ValidateSignature) (expected : Option String)
    (buffer : List Nat) : Except JsErr Unit × ValidateSignature :=
  let computed := computedSignature self.appSecret buffer
  match expected with
  | none => (.error (.jsError "Invalid signature"), self)
  | some e =>
      if e = "" ∨ e ≠ computed then (.error (.jsError "Invalid signature"), self)
      else (.error (.referenceError "log"), self)

/-- The outcome of `ValidateSignature.validate` (its returned/thrown value;
the method has no state effect, see `ValidateSignature.validateRun`). -/
def ValidateSignature.validate (self : ValidateSignature) (expected : Option String)
    (buffer : List Nat) : Except JsErr Unit :=
  (self.validateRun expected buffer).1

/-- The declared algorithm tag of a signature header: the characters before
the first `=` (the `<algorithm>` of `"<algorithm>=<hex-digest>"`). -/
def algName (s : String) : String :=
  String.mk (s.data.takeWhile (fun c => c ≠ '='))

/-! ## The platform client (`Client`) -/

/-- A `MessengerProfile` as the client sees it: the class itself lives
outside the given sources, and the client only ever consumes the plain
object `profile.toObject()` returns, so the model carries that object as
data. -/
structure MessengerProfile where
  obj : List (String × Json)

/-- `profile.toObject()`. -/
def MessengerProfile.toObject (p : MessengerProfile) : List (String × Json) :=
  p.obj

/-- The `Client` instance fields set by its constructor and mutated by
`validateMessengerProfile`: `baseURL`, `pageAccessToken`, the proxy agent
(`none` when no proxy is configured, otherwise the agent's address string)
and `messenger_profile` (`none` until first assigned). -/
structure Client where
  baseURL : String
  pageAccessToken : String
  proxyAgent : Option String
  messenger_profile : Option (List (String × Json))

/-- The outbound request `proxyFetchFacebook` would issue (its `fetch`
arguments up to the fixed JSON content-type header and the proxy agent,
which come from the instance). -/
structure FetchRequest where
  url : String
  method : String
  body : Option String

/-- `validate.oneOf(key, …)` over the keys of the assigned profile object,
in order, as the `for … of Object.keys(…)` loop performs it. -/
def checkProfileKeys (keys allowed : List String) : Except JsErr Unit :=
  match keys with
  | [] => .ok ()
  | k :: rest =>
      match validateOneOf k allowed "messenger_profile" with
      | .error e => .error e
      | .ok _ => checkProfileKeys rest allowed

/-- `Client.validateMessengerProfile(profile, fields = true)` with explicit
state passing. `validProps` stands for `MessengerProfile.validProperties()`
(defined outside the given sources), passed in as the environment. The
constructor-name check `validate.oneOf(profile.constructor.name,
[MessengerProfile.name], …)` compares `"MessengerProfile"` with itself for
every argument of the modelled profile type. Note the assignment
`this.messenger_profile = profile.toObject()` happens before the key loop,
so the instance is updated even when a key check throws. -/
def Client.validateMessengerProfile (validProps : List String) (self : Client)
    (profile : MessengerProfile) (fields : Bool) : Except JsErr Unit × Client :=
  match validateOneOf "MessengerProfile" ["MessengerProfile"] "Messenger Profile" with
  | .error e => (.error e, self)
  | .ok _ =>
      let self' := { self with messenger_profile := some profile.toObject }
      (checkProfileKeys (profile.toObject.map Prod.fst)
        (if fields then ["fields"] else validProps), self')

/-- `Client.setMessengerProfile(profile)` up to the network call: the
outcome is the request it would pass to `proxyFetchFacebook` (or the thrown
validation error), paired with the instance state after the call. -/
def Client.setMessengerProfile (validProps : List String) (self : Client)
    (profile : MessengerProfile) : Except JsErr FetchRequest × Client :=
  match self.validateMessengerProfile validProps profile false with
  | (.error e, self') => (.error e, self')
  | (.ok _, self') =>
      (.ok ⟨self'.baseURL ++ "/me/messenger_profile?access_token=" ++ self'.pageAccessToken,
        "POST", some (Json.stringify (.obj (self'.messenger_profile.getD [])))⟩, self')

/-- The template-literal interpolation `${this.messenger_profile.fields}`
of `getMessengerProfile`. -/
def profileFieldsString (mp : List (String × Json)) : String :=
  match mp.lookup "fields" with
  | some j => jsStringOf j
  | none => "undefined"

/-- `Client.getMessengerProfile(profile)` up to the network call (the
`validateMessengerProfile` call uses the default `fields = true`). -/
def Client.getMessengerProfile (validProps : List String) (self : Client)
    (profile : MessengerProfile) : Except JsErr FetchRequest × Client :=
  match self.validateMessengerProfile validProps profile true with
  | (.error e, self') => (.error e, self')
  | (.ok _, self') =>
      (.ok ⟨self'.baseURL ++ "/me/messenger_profile?fields=" ++
          profileFieldsString (self'.messenger_profile.getD []) ++
          "&access_token=" ++ self'.pageAccessToken, "GET", none⟩, self')

/-- `Client.deleteMessengerProfile(profile)` up to the network call (the
`validateMessengerProfile` call uses the default `fields = true`). -/
def Client.deleteMessengerProfile (validProps : List String) (self : Client)
    (profile : MessengerProfile) : Except JsErr FetchRequest × Client :=
  match self.validateMessengerProfile validProps profile true with
  | (.error e, self') => (.error e, self')
  | (.ok _, self') =>
      (.ok ⟨self'.baseURL ++ "/me/messenger_profile?access_token=" ++ self'.pageAccessToken,
        "DELETE", some (Json.stringify (.obj (self'.messenger_profile.getD [])))⟩, self')

/-- The client state `c'` results from `c` by overwriting
`messenger_profile` with `p.toObject()` and leaving every other field
unchanged. -/
def profileOverwritten (c c' : Client) (p : MessengerProfile) : Prop :=
  c'.messenger_profile = some p.toObject ∧ c'.baseURL = c.baseURL ∧
    c'.pageAccessToken = c.pageAccessToken ∧ c'.proxyAgent = c.proxyAgent

/-- SHA-1 of the empty message matches the published digest. -/
theorem sha1_empty_oracle : sha1 [] = [0xda, 0x39, 0xa3, 0xee, 0x5e, 0x6b, 0x4b,
    0x0d, 0x32, 0x55, 0xbf, 0xef, 0x95, 0x60, 0x18, 0x90, 0xaf, 0xd8, 0x07, 0x09] := by
  decide

/-- HMAC-SHA-1 with key `abc123` over the bytes of `{"test":"true"}` (the
spec's concrete scenario) matches the externally computed digest. -/
theorem hmacSha1_spec_scenario_oracle :
    hexOfBytes (hmacSha1 [97, 98, 99, 49, 50, 51]
      [123, 34, 116, 101, 115, 116, 34, 58, 34, 116, 114, 117, 101, 34, 125]) =
      "b2b40d50d212156383cff67951dc36b60069ebcc" := by
  decide

/-! ## Helper lemmas about the computed signature string -/

theorem computedSignature_data (s b : List Nat) :
    (computedSignature s b).data =
      's' :: 'h' :: 'a' :: '1' :: '=' :: (hexOfBytes (hmacSha1 s b)).data :=
  rfl

theorem computedSignature_ne_empty (s b : List Nat) : computedSignature s b ≠ "" := by
  intro h
  have h2 := congrArg String.data h
  rw [computedSignature_data] at h2
  exact List.cons_ne_nil _ _ h2

theorem algName_computedSignature (s b : List Nat) :
    algName (computedSignature s b) = "sha1" := by
  show String.mk (List.takeWhile _ (computedSignature s b).data) = "sha1"
  rw [computedSignature_data]
  rfl

/-! ## Claim theorems -/

/-- C1: computing the signature of the body `{"test":"true"}` with the
secret `abc123` and verifying that signature against the same body on a
verifier holding the same secret does not return successfully: the source's
success branch evaluates `log.debug` with `log` unbound, so the call throws
a `ReferenceError` instead of returning with no value. -/
theorem validate_throws_referenceError_on_valid_signature :
    ValidateSignature.validate ⟨[97, 98, 99, 49, 50, 51]⟩
      (some "sha1=b2b40d50d212156383cff67951dc36b60069ebcc")
      [123, 34, 116, 101, 115, 116, 34, 58, 34, 116, 114, 117, 101, 34, 125] =
      .error (.referenceError "log") :=
  rfl

/-- C2: the computed signature string is `sha1=` followed by the lowercase
hex HMAC-SHA-1 digest, but `verify` does not succeed when the declared
signature matches it: at secret `secret` and body `hello`, the declared
signature equal to the computed one makes the call throw the
`ReferenceError` for the unbound `log`, not return successfully. -/
theorem validate_match_does_not_succeed :
    computedSignature [115, 101, 99, 114, 101, 116] [104, 101, 108, 108, 111] =
      "sha1=5112055c05f944f85755efc5cd8970e194e9f45b" ∧
    ValidateSignature.validate ⟨[115, 101, 99, 114, 101, 116]⟩
      (some "sha1=5112055c05f944f85755efc5cd8970e194e9f45b") [104, 101, 108, 108, 111] =
      .error (.referenceError "log") :=
  ⟨rfl, rfl⟩

/-- C4: verification fails with the invalid-signature error when the
signature header is missing (`none`), when it is the empty string, and
when its declared algorithm tag is anything other than `sha1`. -/
theorem validate_missing_empty_or_unsupported_rejected (v : ValidateSignature)
    (b : List Nat) :
    v.validate none b = .error (.jsError "Invalid signature") ∧
    v.validate (some "") b = .error (.jsError "Invalid signature") ∧
    ∀ d : String, algName d ≠ "sha1" →
      v.validate (some d) b = .error (.jsError "Invalid signature") := by
  refine ⟨rfl, ?_, ?_⟩
  · simp [ValidateSignature.validate, ValidateSignature.validateRun]
  · intro d hd
    have hne : d ≠ computedSignature v.appSecret b := fun he =>
      hd (he ▸ algName_computedSignature v.appSecret b)
    simp [ValidateSignature.validate, ValidateSignature.validateRun, hne]

/-- C4 witness: the unsupported tag `sha256` and a concrete verifier. -/
theorem validate_missing_empty_or_unsupported_rejected_witness :
    algName "sha256=x" ≠ "sha1" ∧
    ValidateSignature.validate ⟨[97]⟩ (some "sha256=x") [] =
      .error (.jsError "Invalid signature") :=
  ⟨by decide,
    (validate_missing_empty_or_unsupported_rejected ⟨[97]⟩ []).2.2 "sha256=x" (by decide)⟩

/-- C5: constructing a verifier with an absent or empty secret fails with
the `ConfigurationError`, and no instance is produced, so no verification
can ever run on it. -/
theorem construct_absent_or_empty_secret_fails (s? : Option (List Nat))
    (h : s? = none ∨ s? = some []) :
    ValidateSignature.construct s? = .error (.configurationError "app secret") ∧
    ∀ v, ValidateSignature.construct s? ≠ .ok v := by
  have he : ValidateSignature.construct s? = .error (.configurationError "app secret") := by
    rcases h with h | h <;> subst h <;> rfl
  exact ⟨he, fun v hv => by rw [he] at hv; exact Except.noConfusion hv⟩

/-- C5 witness: the absent secret. -/
theorem construct_absent_or_empty_secret_fails_witness :
    ValidateSignature.construct none = .error (.configurationError "app secret") ∧
    ∀ v, ValidateSignature.construct none ≠ .ok v :=
  construct_absent_or_empty_secret_fails none (Or.inl rfl)

/-- C7: `validate` is deterministic — identical inputs give identical
results — and stateless: the instance, and in particular its `appSecret`
field, is returned unchanged by every call, succeeding or throwing. -/
theorem validate_deterministic_and_stateless (v : ValidateSignature)
    (e : Option String) (b : List Nat) :
    v.validateRun e b = v.validateRun e b ∧
    (v.validateRun e b).2 = v ∧
    (v.validateRun e b).2.appSecret = v.appSecret := by
  have hst : (v.validateRun e b).2 = v := by
    unfold ValidateSignature.validateRun
    cases e with
    | none => rfl
    | some s =>
        by_cases h : s = "" ∨ s ≠ computedSignature v.appSecret b <;> simp [h]
  exact ⟨rfl, hst, by rw [hst]⟩

/-- C9: a declared signature passes the comparison (that is, the call does
not throw the invalid-signature error) exactly when it is, byte for byte,
the canonical string `sha1=` followed by the lowercase hex HMAC-SHA-1
digest; every other string — uppercase hex, another algorithm tag such as
`sha256`, anything else — is rejected, and the declared tag is never used
to select the hash. -/
theorem validate_accepts_only_canonical_signature (s b : List Nat) (d : String) :
    ValidateSignature.validate ⟨s⟩ (some d) b ≠ .error (.jsError "Invalid signature") ↔
      d = computedSignature s b := by
  constructor
  · intro h
    by_contra hd
    exact h (by simp [ValidateSignature.validate, ValidateSignature.validateRun, hd])
  · intro hd
    subst hd
    simp only [ValidateSignature.validate, ValidateSignature.validateRun]
    simp [computedSignature_ne_empty s b]

/-- C10: `validateMessengerProfile` — and through it `setMessengerProfile`,
`getMessengerProfile` and `deleteMessengerProfile` — overwrites the
client's `messenger_profile` field with `profile.toObject()`, whatever the
outcome, and leaves `baseURL`, `pageAccessToken` and `proxyAgent`
unchanged. -/
theorem messengerProfileOps_overwrite_profile_and_preserve_rest
    (vp : List String) (c : Client) (p : MessengerProfile) (fb : Bool) :
    profileOverwritten c (c.validateMessengerProfile vp p fb).2 p ∧
    profileOverwritten c (c.setMessengerProfile vp p).2 p ∧
    profileOverwritten c (c.getMessengerProfile vp p).2 p ∧
    profileOverwritten c (c.deleteMessengerProfile vp p).2 p := by
  have hv : ∀ fb' : Bool, (c.validateMessengerProfile vp p fb').2 =
      { c with messenger_profile := some p.toObject } := fun _ => rfl
  have hpair : ∀ fb' : Bool, c.validateMessengerProfile vp p fb' =
      (checkProfileKeys (p.toObject.map Prod.fst) (if fb' then ["fields"] else vp),
        { c with messenger_profile := some p.toObject }) := fun _ => rfl
  refine ⟨?_, ?_, ?_, ?_⟩
  · rw [hv fb]
    exact ⟨rfl, rfl, rfl, rfl⟩
  · unfold Client.setMessengerProfile
    rw [hpair false]
    cases checkProfileKeys (p.toObject.map Prod.fst) (if false then ["fields"] else vp) <;>
      exact ⟨rfl, rfl, rfl, rfl⟩
  · unfold Client.getMessengerProfile
    rw [hpair true]
    cases checkProfileKeys (p.toObject.map Prod.fst) (if true then ["fields"] else vp) <;>
      exact ⟨rfl, rfl, rfl, rfl⟩
  · unfold Client.deleteMessengerProfile
    rw [hpair true]
    cases checkProfileKeys (p.toObject.map Prod.fst) (if true then ["fields"] else vp) <;>
      exact ⟨rfl, rfl, rfl, rfl⟩

end FbMessenger
